import Mathlib

/-!
Shallow embedding of src/SeqRANSAC/PlaneEstimation.cpp.

Real (float/double) arithmetic is modelled exactly over the rationals.
The OpenCV routine cv::eigen is modelled by an abstract parameter
eig : Matrix -> Matrix giving the eigenvector matrix (rows sorted by
descending eigenvalue, as OpenCV documents); the predicate EigenSpec
states the properties a symmetric eigensolver guarantees.  The C library
rand() stream is modelled by an explicit function rng : Nat -> Rat whose
value at position j is rand()/RAND_MAX at the j-th call, an exact
rational in [0, 1].  The two unbounded resampling while-loops get a fuel
parameter; a result of none for every fuel models divergence, and none
reached through an out-of-range vector access models the std::out_of_range
exception thrown by std::vector::at.
-/

/-- cv::Point3f, an immutable coordinate triple (exact model). -/
structure Point3f where
  x : ℚ
  y : ℚ
  z : ℚ
deriving DecidableEq, Repr

/-- The four plane parameters A, B, C, D of the implicit form
Ax + By + Cz + D = 0 (the float array of length 4 the estimators return). -/
structure PlaneModel where
  A : ℚ
  B : ℚ
  C : ℚ
  D : ℚ
deriving DecidableEq, Repr

/-- The coordinates of a point as a 3-vector. -/
def vec3 (p : Point3f) : Fin 3 → ℚ := ![p.x, p.y, p.z]

/-- The center of gravity t computed by the first loop of
EstimatePlaneOptimal: coordinatewise sum divided by the number of points. -/
def centroid (pts : List Point3f) : Point3f :=
  { x := (pts.map Point3f.x).sum / pts.length
  , y := (pts.map Point3f.y).sum / pts.length
  , z := (pts.map Point3f.z).sum / pts.length }

/-- Entry (i, j) of the matrix mtx = X^T * X of EstimatePlaneOptimal,
where row idx of X is pts[idx] - t (the centered coordinates). -/
def scatter (pts : List Point3f) : Matrix (Fin 3) (Fin 3) ℚ :=
  Matrix.of fun i j =>
    (pts.map fun p =>
      (vec3 p i - vec3 (centroid pts) i) * (vec3 p j - vec3 (centroid pts) j)).sum

/-- The centered coordinate matrix X of EstimatePlaneOptimal
(X.at(idx, j) = pts.at(idx) coordinate j minus centroid coordinate j). -/
def Xmat (pts : List Point3f) : Matrix (Fin pts.length) (Fin 3) ℚ :=
  Matrix.of fun i j => vec3 (pts.get i) j - vec3 (centroid pts) j

/-- EstimatePlaneOptimal of PlaneEstimation.cpp: center of gravity t,
scatter matrix X^T * X, eigen-decomposition, normal = last row of the
eigenvector matrix (the one of the least eigenvalue), and
D = -(A t.x + B t.y + C t.z).  The eigensolver is the parameter eig. -/
def EstimatePlaneOptimal (eig : Matrix (Fin 3) (Fin 3) ℚ → Matrix (Fin 3) (Fin 3) ℚ)
    (pts : List Point3f) : PlaneModel :=
  let t := centroid pts
  let evecs := eig (scatter pts)
  let A := evecs 2 0
  let B := evecs 2 1
  let C := evecs 2 2
  { A := A, B := B, C := C, D := -(A * t.x + B * t.y + C * t.z) }

/-- What cv::eigen guarantees for a symmetric input matrix: the rows of
evecs form an orthonormal system, row i is an eigenvector of mtx for the
eigenvalue evals i, and the eigenvalues are stored in descending order. -/
def EigenSpec (mtx evecs : Matrix (Fin 3) (Fin 3) ℚ) (evals : Fin 3 → ℚ) : Prop :=
  evecs * evecs.transpose = 1 ∧
  (∀ i, mtx.mulVec (fun j => evecs i j) = evals i • fun j => evecs i j) ∧
  evals 1 ≤ evals 0 ∧ evals 2 ≤ evals 1

/-- The per-point quantity diff = fabs(A x + B y + C z + D) of
PlanePointRANSACDifferences. -/
def planeDist (plane : PlaneModel) (p : Point3f) : ℚ :=
  |plane.A * p.x + plane.B * p.y + plane.C * p.z + plane.D|

/-- RANSACDiffs of PlaneEstimation.h: per-point distances and inlier
flags plus the inlier counter. -/
structure RANSACDiffs where
  inliersNum : ℕ
  distances : List ℚ
  isInliers : List Bool
deriving DecidableEq, Repr

/-- PlanePointRANSACDifferences of PlaneEstimation.cpp: one pass over the
points pushing diff onto distances, pushing (diff < threshold) onto
isInliers, and incrementing the inlier counter exactly when
diff < threshold holds. -/
def PlanePointRANSACDifferences (pts : List Point3f) (plane : PlaneModel)
    (threshold : ℚ) : RANSACDiffs :=
  { inliersNum := pts.countP fun p => decide (planeDist plane p < threshold)
  , distances := pts.map (planeDist plane)
  , isInliers := pts.map fun p => decide (planeDist plane p < threshold) }

/-- The index (int)(r * num) computed from one ratio r = rand()/RAND_MAX
(truncation equals the floor, the ratio being non-negative). -/
def drawIdx (num : ℕ) (r : ℚ) : ℤ := ⌊r * num⌋

/-- std::vector::at: the element at the index, or none — modelling the
std::out_of_range exception — when the index is outside [0, size). -/
def atZ (pts : List Point3f) (i : ℤ) : Option Point3f :=
  if i < 0 then none else pts[i.toNat]?

/-- One resampling while-loop of EstimatePlaneRANSAC: while collide(index)
holds, redraw index = (int)((rand()/RAND_MAX) * num) from the stream.
fuel bounds the number of redraws; none for every fuel models a loop that
never exits.  Returns the accepted index and the next stream position. -/
def resampleLoop (num : ℕ) (rng : ℕ → ℚ) (collide : ℤ → Bool) :
    ℕ → ℤ → ℕ → Option (ℤ × ℕ)
  | 0, cur, pos => if collide cur then none else some (cur, pos)
  | fuel + 1, cur, pos =>
    if collide cur then
      resampleLoop num rng collide fuel (drawIdx num (rng pos)) (pos + 1)
    else some (cur, pos)

/-- The minimal-sample index drawing of one RANSAC trial.  rand1, rand2,
rand3 are three consecutive rand() calls (positions pos, pos+1, pos+2);
then the index2 while-loop redraws on collision with index1 starting at
position pos+3, and the index3 while-loop redraws on collision with
index1 or index2 from wherever the index2 loop stopped.  Returns the
three indices and the stream position after the trial. -/
def sampleTriple (num : ℕ) (rng : ℕ → ℚ) (pos : ℕ) (fuel : ℕ) :
    Option (ℤ × ℤ × ℤ × ℕ) := do
  let index1 := drawIdx num (rng pos)
  let r2 ← resampleLoop num rng (fun i => i == index1) fuel
      (drawIdx num (rng (pos + 1))) (pos + 3)
  let r3 ← resampleLoop num rng (fun i => i == index1 || i == r2.1) fuel
      (drawIdx num (rng (pos + 2))) r2.2
  some (index1, r2.1, r3.1, r3.2)

/-- The best-candidate update of one trial of EstimatePlaneRANSAC: the
incumbent (bestSampleInlierNum, bestPlane) is replaced exactly when the
new score is strictly greater (sampleResult.inliersNum > bestSampleInlierNum);
bestPlane is none while no trial has improved on the initial score 0,
modelling the uninitialized array float bestPlane[4]. -/
def updBest (best : ℕ × Option PlaneModel) (c : ℕ × PlaneModel) :
    ℕ × Option PlaneModel :=
  if best.1 < c.1 then (c.1, some c.2) else best

/-- The trial for-loop of EstimatePlaneRANSAC: k remaining trials, the
current stream position and the running (bestSampleInlierNum, bestPlane).
Each trial samples three indices, reads the three points, fits the
minimal sample with EstimatePlaneOptimal, scores it on the full cloud
with PlanePointRANSACDifferences at the caller's threshold, and updates
the incumbent.  none models a trial aborted by divergence or by a
std::out_of_range throw. -/
def ransacLoop (eig : Matrix (Fin 3) (Fin 3) ℚ → Matrix (Fin 3) (Fin 3) ℚ)
    (pts : List Point3f) (threshold : ℚ) (rng : ℕ → ℚ) (fuel : ℕ) :
    ℕ → ℕ → ℕ × Option PlaneModel → Option (ℕ × (ℕ × Option PlaneModel))
  | 0, _pos, best => some (_pos, best)
  | k + 1, pos, best => do
    let s ← sampleTriple pts.length rng pos fuel
    let pt1 ← atZ pts s.1
    let pt2 ← atZ pts s.2.1
    let pt3 ← atZ pts s.2.2.1
    let samplePlane := EstimatePlaneOptimal eig [pt1, pt2, pt3]
    let sampleResult := PlanePointRANSACDifferences pts samplePlane threshold
    ransacLoop eig pts threshold rng fuel k s.2.2.2
      (updBest best (sampleResult.inliersNum, samplePlane))

/-- EstimatePlaneRANSAC of PlaneEstimation.cpp.  iterateNum is the C int
parameter; for(iter = 0; iter < iterateNum; ...) runs iterateNum.toNat
trials.  Afterwards the best plane — none stands for the uninitialized
bestPlane array when no trial ever improved the score, an undefined read
modelled as failure — classifies the full cloud once more, the points
flagged inlier are collected in order, and the returned plane is one
final EstimatePlaneOptimal call on that inlier subset alone. -/
def EstimatePlaneRANSAC (eig : Matrix (Fin 3) (Fin 3) ℚ → Matrix (Fin 3) (Fin 3) ℚ)
    (pts : List Point3f) (threshold : ℚ) (iterateNum : ℤ) (rng : ℕ → ℚ)
    (fuel : ℕ) : Option PlaneModel := do
  let r ← ransacLoop eig pts threshold rng fuel iterateNum.toNat 0 (0, none)
  let bestPlane ← r.2.2
  let bestResult := PlanePointRANSACDifferences pts bestPlane threshold
  let inlierPts := (pts.zip bestResult.isInliers).filterMap
      fun pb => if pb.2 then some pb.1 else none
  some (EstimatePlaneOptimal eig inlierPts)

/-- The list of (score, candidate plane) pairs produced by a successful
run of the trial loop, in trial order, with the final stream position:
the same iteration as ransacLoop, collecting instead of folding. -/
def candidateList (eig : Matrix (Fin 3) (Fin 3) ℚ → Matrix (Fin 3) (Fin 3) ℚ)
    (pts : List Point3f) (threshold : ℚ) (rng : ℕ → ℚ) (fuel : ℕ) :
    ℕ → ℕ → Option (List (ℕ × PlaneModel) × ℕ)
  | 0, pos => some ([], pos)
  | k + 1, pos => do
    let s ← sampleTriple pts.length rng pos fuel
    let pt1 ← atZ pts s.1
    let pt2 ← atZ pts s.2.1
    let pt3 ← atZ pts s.2.2.1
    let samplePlane := EstimatePlaneOptimal eig [pt1, pt2, pt3]
    let sampleResult := PlanePointRANSACDifferences pts samplePlane threshold
    let rest ← candidateList eig pts threshold rng fuel k s.2.2.2
    some ((sampleResult.inliersNum, samplePlane) :: rest.1, rest.2)

/-- The greatest score in a list of scored candidates, 0 for the empty
list (matching the initialization bestSampleInlierNum = 0). -/
def maxScore (L : List (ℕ × PlaneModel)) : ℕ := (L.map Prod.fst).foldr max 0

/-- A concrete eigensolver output used in witnesses: the identity matrix,
a valid orthonormal eigenbasis whenever the scatter matrix is diagonal. -/
def eigId : Matrix (Fin 3) (Fin 3) ℚ → Matrix (Fin 3) (Fin 3) ℚ :=
  fun _ => Matrix.of ![![1, 0, 0], ![0, 1, 0], ![0, 0, 1]]

/-- Concrete cloud: the unit square in the plane z = 0. -/
def ptsSquare : List Point3f := [⟨0, 0, 0⟩, ⟨1, 0, 0⟩, ⟨0, 1, 0⟩, ⟨1, 1, 0⟩]

/-- Concrete cloud: a triangle in the plane z = 0. -/
def ptsTri : List Point3f := [⟨0, 0, 0⟩, ⟨1, 0, 0⟩, ⟨0, 1, 0⟩]

/-- Concrete cloud with two points. -/
def ptsTwo : List Point3f := [⟨0, 0, 0⟩, ⟨2, 0, 0⟩]

/-- Concrete cloud with one point. -/
def ptsOne : List Point3f := [⟨0, 0, 0⟩]

/-- Concrete rand()/RAND_MAX stream drawing the index triple (0, 1, 2) on
a 3-point cloud. -/
def rngTri : ℕ → ℚ :=
  fun j => if j = 0 then 0 else if j = 1 then 1/3 else if j = 2 then 2/3 else 0

/-- Concrete stream whose first draw is rand() = RAND_MAX, giving the
ratio 1 and hence index1 = num. -/
def rngCrash : ℕ → ℚ :=
  fun j => if j = 0 then 1 else if j = 1 then 0 else if j = 2 then 1/3 else 0

/-- Concrete stream drawing the ratio 1/2 forever. -/
def rngHalf : ℕ → ℚ := fun _ => 1/2

/-- Concrete stream modelling the global rand() state across two
back-to-back calls: positions 0..2 draw the triple (0, 1, 2), positions
3..5 — where the second call starts — draw the triple (2, 1, 0). -/
def rngGlobal : ℕ → ℚ :=
  fun j =>
    if j = 0 then 0 else if j = 1 then 1/3 else if j = 2 then 2/3 else
    if j = 3 then 2/3 else if j = 4 then 1/3 else 0

theorem list_count_true_map (l : List Point3f) (p : Point3f → Bool) :
    (l.map p).count true = l.countP p := by
  induction l with
  | nil => rfl
  | cons a t ih => cases h : p a <;>
      simp [List.count_cons, List.countP_cons, h, ih]

/-- Claim C2: the classifier returns index-aligned distances and flags —
the i-th distance is the absolute residual of the i-th point, the i-th
flag is true exactly when that residual is strictly below the threshold
(so a residual equal to the threshold is an outlier) — and the inlier
count equals the number of true flags. -/
theorem planePointRANSACDifferences_spec (pts : List Point3f)
    (plane : PlaneModel) (threshold : ℚ) :
    (PlanePointRANSACDifferences pts plane threshold).distances.length = pts.length ∧
    (PlanePointRANSACDifferences pts plane threshold).isInliers.length = pts.length ∧
    (∀ (i : ℕ) (p : Point3f), pts[i]? = some p →
      (PlanePointRANSACDifferences pts plane threshold).distances[i]? =
        some |plane.A * p.x + plane.B * p.y + plane.C * p.z + plane.D| ∧
      ((PlanePointRANSACDifferences pts plane threshold).isInliers[i]? = some true ↔
        |plane.A * p.x + plane.B * p.y + plane.C * p.z + plane.D| < threshold)) ∧
    (PlanePointRANSACDifferences pts plane threshold).inliersNum =
      (PlanePointRANSACDifferences pts plane threshold).isInliers.count true := by
  refine ⟨by simp [PlanePointRANSACDifferences], by simp [PlanePointRANSACDifferences],
    fun i p hp => ⟨?_, ?_⟩, ?_⟩
  · simp [PlanePointRANSACDifferences, List.getElem?_map, hp, planeDist]
  · simp [PlanePointRANSACDifferences, List.getElem?_map, hp, planeDist]
  · exact (list_count_true_map pts _).symm

/-- Claim C9: the classifier is monotone in the threshold — every inlier
at t1 is an inlier at any t2 with t1 le t2, the inlier count does not
decrease — and a non-positive threshold yields the all-false mask with
inlier count 0, returned normally rather than as an error. -/
theorem classifier_threshold_monotone (pts : List Point3f) (plane : PlaneModel)
    (t1 t2 : ℚ) (h12 : t1 ≤ t2) :
    (∀ i : ℕ, (PlanePointRANSACDifferences pts plane t1).isInliers[i]? = some true →
      (PlanePointRANSACDifferences pts plane t2).isInliers[i]? = some true) ∧
    (PlanePointRANSACDifferences pts plane t1).inliersNum ≤
      (PlanePointRANSACDifferences pts plane t2).inliersNum ∧
    (t1 ≤ 0 →
      (PlanePointRANSACDifferences pts plane t1).isInliers =
        List.replicate pts.length false ∧
      (PlanePointRANSACDifferences pts plane t1).inliersNum = 0) := by
  refine ⟨?_, ?_, ?_⟩
  · intro i hi
    simp only [PlanePointRANSACDifferences, List.getElem?_map] at hi ⊢
    obtain ⟨p, hp, hd⟩ := Option.map_eq_some'.mp hi
    rw [hp]
    simp only [Option.map_some', Option.some.injEq] at hd ⊢
    have := of_decide_eq_true hd
    exact decide_eq_true (lt_of_lt_of_le this h12)
  · simp only [PlanePointRANSACDifferences]
    induction pts with
    | nil => simp
    | cons a t ih =>
      simp only [List.countP_cons]
      rcases lt_or_le (planeDist plane a) t1 with h | h
      · simp [h, lt_of_lt_of_le h h12]; omega
      · rcases lt_or_le (planeDist plane a) t2 with h2 | h2 <;> simp [h2, not_lt.mpr h] <;> omega
  · intro h0
    have hfalse : ∀ p : Point3f, decide (planeDist plane p < t1) = false := by
      intro p
      have : ¬ planeDist plane p < t1 :=
        not_lt.mpr (le_trans h0 (abs_nonneg _))
      exact decide_eq_false this
    constructor
    · simp only [PlanePointRANSACDifferences]
      rw [List.eq_replicate_iff]
      refine ⟨by simp, ?_⟩
      intro b hb
      obtain ⟨p, _, hp⟩ := List.mem_map.mp hb
      rw [← hp, hfalse]
    · simp only [PlanePointRANSACDifferences]
      rw [List.countP_eq_zero]
      intro p _
      simp [hfalse p]

/-- Witness for the monotonicity claim at a concrete input. -/
theorem classifier_threshold_monotone_witness :
    ((1 : ℚ)/2 ≤ 1) ∧
    ((∀ i : ℕ, (PlanePointRANSACDifferences ptsSquare ⟨0, 0, 1, 0⟩ (1/2)).isInliers[i]? = some true →
      (PlanePointRANSACDifferences ptsSquare ⟨0, 0, 1, 0⟩ 1).isInliers[i]? = some true) ∧
    (PlanePointRANSACDifferences ptsSquare ⟨0, 0, 1, 0⟩ (1/2)).inliersNum ≤
      (PlanePointRANSACDifferences ptsSquare ⟨0, 0, 1, 0⟩ 1).inliersNum ∧
    ((1 : ℚ)/2 ≤ 0 →
      (PlanePointRANSACDifferences ptsSquare ⟨0, 0, 1, 0⟩ (1/2)).isInliers =
        List.replicate ptsSquare.length false ∧
      (PlanePointRANSACDifferences ptsSquare ⟨0, 0, 1, 0⟩ (1/2)).inliersNum = 0)) :=
  ⟨by norm_num, classifier_threshold_monotone ptsSquare ⟨0, 0, 1, 0⟩ (1/2) 1 (by norm_num)⟩

theorem list_sum_map_eq_fin_sum (l : List Point3f) (f : Point3f → ℚ) :
    (l.map f).sum = ∑ i : Fin l.length, f (l.get i) := by
  induction l with
  | nil => simp
  | cons a t ih =>
    rw [List.map_cons, List.sum_cons, ih]
    show f a + ∑ i : Fin t.length, f (t.get i)
        = ∑ i : Fin (t.length + 1), f ((a :: t).get i)
    rw [Fin.sum_univ_succ]
    congr 1

theorem scatter_eq_XTX (pts : List Point3f) :
    scatter pts = (Xmat pts).transpose * Xmat pts := by
  ext i j
  simp only [scatter, Xmat, Matrix.mul_apply, Matrix.transpose_apply, Matrix.of_apply]
  rw [list_sum_map_eq_fin_sum]

theorem scatter_transpose (pts : List Point3f) :
    (scatter pts).transpose = scatter pts := by
  ext i j
  simp only [Matrix.transpose_apply, scatter, Matrix.of_apply]
  have h : (fun p => (vec3 p j - vec3 (centroid pts) j) * (vec3 p i - vec3 (centroid pts) i))
      = fun p => (vec3 p i - vec3 (centroid pts) i) * (vec3 p j - vec3 (centroid pts) j) := by
    funext p
    ring
  rw [h]

theorem eigenvalue_min (mtx evecs : Matrix (Fin 3) (Fin 3) ℚ) (evals : Fin 3 → ℚ)
    (hsym : mtx.transpose = mtx) (hspec : EigenSpec mtx evecs evals)
    (μ : ℚ) (v : Fin 3 → ℚ) (hv : v ≠ 0) (heq : mtx.mulVec v = μ • v) :
    evals 2 ≤ μ := by
  obtain ⟨hON, heig, h10, h21⟩ := hspec
  have hONT : evecs.transpose * evecs = 1 := Matrix.mul_eq_one_comm.mp hON
  have key : ∀ i : Fin 3,
      (evals i - μ) * Matrix.dotProduct (fun j => evecs i j) v = 0 := by
    intro i
    have h1 : Matrix.dotProduct (fun j => evecs i j) (mtx.mulVec v)
        = μ * Matrix.dotProduct (fun j => evecs i j) v := by
      rw [heq, Matrix.dotProduct_smul, smul_eq_mul]
    have h2 : Matrix.dotProduct (fun j => evecs i j) (mtx.mulVec v)
        = evals i * Matrix.dotProduct (fun j => evecs i j) v := by
      rw [Matrix.dotProduct_mulVec]
      have hvm : Matrix.vecMul (fun j => evecs i j) mtx
          = mtx.mulVec (fun j => evecs i j) := by
        rw [← Matrix.mulVec_transpose, hsym]
      rw [hvm, heig i, Matrix.smul_dotProduct, smul_eq_mul]
    have h3 := h2.symm.trans h1
    ring_nf
    linear_combination h3
  by_cases hc : ∀ i : Fin 3, Matrix.dotProduct (fun j => evecs i j) v = 0
  · exfalso
    apply hv
    have hzero : evecs.mulVec v = 0 := by
      funext i
      rw [Pi.zero_apply]
      exact hc i
    calc v = (1 : Matrix (Fin 3) (Fin 3) ℚ).mulVec v := (Matrix.one_mulVec v).symm
      _ = (evecs.transpose * evecs).mulVec v := by rw [hONT]
      _ = evecs.transpose.mulVec (evecs.mulVec v) := (Matrix.mulVec_mulVec v _ _).symm
      _ = evecs.transpose.mulVec 0 := by rw [hzero]
      _ = 0 := Matrix.mulVec_zero _
  · push_neg at hc
    obtain ⟨i, hi⟩ := hc
    have hμ : μ = evals i := by
      have h0 := key i
      rcases mul_eq_zero.mp h0 with h | h
      · linarith [sub_eq_zero.mp h]
      · exact absurd h hi
    rw [hμ]
    fin_cases i
    · exact le_trans h21 h10
    · exact h21
    · exact le_rfl

/-- Claim C1: for a cloud of at least three points, whenever the abstract
eigensolver output satisfies the symmetric eigensolver contract on the
scatter matrix, EstimatePlaneOptimal returns a plane whose normal
(A, B, C) is a unit vector, an eigenvector of the scatter matrix
S = X^T * X of the centered coordinates for the last stored eigenvalue,
that eigenvalue is the smallest eigenvalue of S, and
D = -(A t.x + B t.y + C t.z), so the plane passes through the centroid. -/
theorem estimatePlaneOptimal_spec
    (eig : Matrix (Fin 3) (Fin 3) ℚ → Matrix (Fin 3) (Fin 3) ℚ)
    (pts : List Point3f) (evals : Fin 3 → ℚ) (h3 : 3 ≤ pts.length)
    (hspec : EigenSpec (scatter pts) (eig (scatter pts)) evals) :
    scatter pts = (Xmat pts).transpose * Xmat pts ∧
    (EstimatePlaneOptimal eig pts).A ^ 2 + (EstimatePlaneOptimal eig pts).B ^ 2 +
        (EstimatePlaneOptimal eig pts).C ^ 2 = 1 ∧
    (scatter pts).mulVec
        ![(EstimatePlaneOptimal eig pts).A, (EstimatePlaneOptimal eig pts).B,
          (EstimatePlaneOptimal eig pts).C]
      = evals 2 • ![(EstimatePlaneOptimal eig pts).A, (EstimatePlaneOptimal eig pts).B,
          (EstimatePlaneOptimal eig pts).C] ∧
    (∀ (μ : ℚ) (v : Fin 3 → ℚ), v ≠ 0 → (scatter pts).mulVec v = μ • v → evals 2 ≤ μ) ∧
    (EstimatePlaneOptimal eig pts).D
      = -((EstimatePlaneOptimal eig pts).A * (centroid pts).x +
          (EstimatePlaneOptimal eig pts).B * (centroid pts).y +
          (EstimatePlaneOptimal eig pts).C * (centroid pts).z) ∧
    (EstimatePlaneOptimal eig pts).A * (centroid pts).x +
      (EstimatePlaneOptimal eig pts).B * (centroid pts).y +
      (EstimatePlaneOptimal eig pts).C * (centroid pts).z +
      (EstimatePlaneOptimal eig pts).D = 0 := by
  have hvec : ![(EstimatePlaneOptimal eig pts).A, (EstimatePlaneOptimal eig pts).B,
      (EstimatePlaneOptimal eig pts).C] = fun j => eig (scatter pts) 2 j := by
    funext j
    fin_cases j <;> rfl
  refine ⟨scatter_eq_XTX pts, ?_, ?_, ?_, by simp [EstimatePlaneOptimal], ?_⟩
  · have h22 := congrFun (congrFun hspec.1 2) 2
    simp only [Matrix.mul_apply, Matrix.transpose_apply, Matrix.one_apply,
      Fin.sum_univ_three, eq_self_iff_true, if_true] at h22
    simp only [EstimatePlaneOptimal]
    linear_combination h22
  · rw [hvec]
    exact hspec.2.1 2
  · exact fun μ v hv hveq =>
      eigenvalue_min (scatter pts) (eig (scatter pts)) evals
        (scatter_transpose pts) hspec μ v hv hveq
  · simp only [EstimatePlaneOptimal]
    ring

theorem scatter_ptsSquare :
    scatter ptsSquare = Matrix.of ![![1, 0, 0], ![0, 1, 0], ![0, 0, 0]] := by
  ext i j
  fin_cases i <;> fin_cases j <;>
    norm_num [scatter, centroid, ptsSquare, vec3]

theorem eigId_eq_one (m : Matrix (Fin 3) (Fin 3) ℚ) : eigId m = 1 := by
  ext i j
  fin_cases i <;> fin_cases j <;>
    simp [eigId, Matrix.one_apply, Matrix.vecHead, Matrix.vecTail]

theorem eigenSpec_ptsSquare :
    EigenSpec (scatter ptsSquare) (eigId (scatter ptsSquare)) ![1, 1, 0] := by
  refine ⟨?_, ?_, ?_, ?_⟩
  · rw [eigId_eq_one, Matrix.transpose_one, one_mul]
  · intro i
    rw [scatter_ptsSquare, eigId_eq_one]
    funext j
    fin_cases i <;> fin_cases j <;>
      norm_num [Matrix.mulVec, Matrix.dotProduct, Fin.sum_univ_three,
        Matrix.one_apply, Fin.ext_iff]
  · norm_num
  · norm_num

/-- Witness for the optimal fitter claim: the unit square at z = 0, whose
scatter matrix is diagonal with eigenvalues 1, 1, 0, and the identity
eigenvector matrix. -/
theorem estimatePlaneOptimal_spec_witness :
    (3 ≤ ptsSquare.length ∧
      EigenSpec (scatter ptsSquare) (eigId (scatter ptsSquare)) ![1, 1, 0]) ∧
    (scatter ptsSquare = (Xmat ptsSquare).transpose * Xmat ptsSquare ∧
    (EstimatePlaneOptimal eigId ptsSquare).A ^ 2 + (EstimatePlaneOptimal eigId ptsSquare).B ^ 2 +
        (EstimatePlaneOptimal eigId ptsSquare).C ^ 2 = 1 ∧
    (scatter ptsSquare).mulVec
        ![(EstimatePlaneOptimal eigId ptsSquare).A, (EstimatePlaneOptimal eigId ptsSquare).B,
          (EstimatePlaneOptimal eigId ptsSquare).C]
      = (![1, 1, 0] : Fin 3 → ℚ) 2 •
        ![(EstimatePlaneOptimal eigId ptsSquare).A, (EstimatePlaneOptimal eigId ptsSquare).B,
          (EstimatePlaneOptimal eigId ptsSquare).C] ∧
    (∀ (μ : ℚ) (v : Fin 3 → ℚ), v ≠ 0 → (scatter ptsSquare).mulVec v = μ • v →
      (![1, 1, 0] : Fin 3 → ℚ) 2 ≤ μ) ∧
    (EstimatePlaneOptimal eigId ptsSquare).D
      = -((EstimatePlaneOptimal eigId ptsSquare).A * (centroid ptsSquare).x +
          (EstimatePlaneOptimal eigId ptsSquare).B * (centroid ptsSquare).y +
          (EstimatePlaneOptimal eigId ptsSquare).C * (centroid ptsSquare).z) ∧
    (EstimatePlaneOptimal eigId ptsSquare).A * (centroid ptsSquare).x +
      (EstimatePlaneOptimal eigId ptsSquare).B * (centroid ptsSquare).y +
      (EstimatePlaneOptimal eigId ptsSquare).C * (centroid ptsSquare).z +
      (EstimatePlaneOptimal eigId ptsSquare).D = 0) :=
  ⟨⟨by decide, eigenSpec_ptsSquare⟩,
    estimatePlaneOptimal_spec eigId ptsSquare ![1, 1, 0] (by decide)
      eigenSpec_ptsSquare⟩

theorem maxScore_cons (c : ℕ × PlaneModel) (L : List (ℕ × PlaneModel)) :
    maxScore (c :: L) = max c.1 (maxScore L) := rfl

theorem foldl_updBest_fst (L : List (ℕ × PlaneModel)) :
    ∀ b : ℕ × Option PlaneModel, (List.foldl updBest b L).1 = max b.1 (maxScore L) := by
  induction L with
  | nil => intro b; simp [maxScore]
  | cons c T ih =>
    intro b
    rw [List.foldl_cons, ih, maxScore_cons]
    rw [updBest]
    rcases lt_or_le b.1 c.1 with h | h
    · rw [if_pos h]
      simp only
      omega
    · rw [if_neg (not_lt.mpr h)]
      omega

theorem foldl_updBest_of_le (L : List (ℕ × PlaneModel)) :
    ∀ b : ℕ × Option PlaneModel, maxScore L ≤ b.1 → List.foldl updBest b L = b := by
  induction L with
  | nil => intro b _; rfl
  | cons c T ih =>
    intro b h
    rw [maxScore_cons] at h
    rw [List.foldl_cons, updBest,
      if_neg (not_lt.mpr (le_trans (le_max_left _ _) h))]
    exact ih b (le_trans (le_max_right _ _) h)

theorem foldl_updBest_of_lt (L : List (ℕ × PlaneModel)) :
    ∀ b : ℕ × Option PlaneModel, b.1 < maxScore L →
      ∃ c, L.find? (fun d => d.1 == maxScore L) = some c ∧
        List.foldl updBest b L = (maxScore L, some c.2) := by
  induction L with
  | nil =>
    intro b h
    simp [maxScore] at h
  | cons c T ih =>
    intro b h
    rw [maxScore_cons] at h ⊢
    rw [List.foldl_cons]
    rcases le_or_lt (maxScore T) c.1 with hTc | hcT
    · have hmax : max c.1 (maxScore T) = c.1 := max_eq_left hTc
      rw [hmax] at h ⊢
      have hupd : updBest b c = (c.1, some c.2) := by rw [updBest, if_pos h]
      rw [hupd]
      refine ⟨c, ?_, foldl_updBest_of_le T (c.1, some c.2) hTc⟩
      exact List.find?_cons_of_pos _ (by simp)
    · have hmax : max c.1 (maxScore T) = maxScore T := max_eq_right (le_of_lt hcT)
      rw [hmax] at h ⊢
      have hb2 : (updBest b c).1 < maxScore T := by
        rw [updBest]
        rcases lt_or_le b.1 c.1 with h2 | h2
        · rw [if_pos h2]; exact hcT
        · rw [if_neg (not_lt.mpr h2)]; exact h
      obtain ⟨d, hfind, hfold⟩ := ih (updBest b c) hb2
      refine ⟨d, ?_, hfold⟩
      rw [List.find?_cons_of_neg _ (by simp; omega)]
      exact hfind

theorem ransacLoop_eq_candidateList
    (eig : Matrix (Fin 3) (Fin 3) ℚ → Matrix (Fin 3) (Fin 3) ℚ)
    (pts : List Point3f) (threshold : ℚ) (rng : ℕ → ℚ) (fuel : ℕ) :
    ∀ (k pos : ℕ) (b : ℕ × Option PlaneModel),
      ransacLoop eig pts threshold rng fuel k pos b =
        (candidateList eig pts threshold rng fuel k pos).map
          (fun r => (r.2, List.foldl updBest b r.1)) := by
  intro k
  induction k with
  | zero => intro pos b; simp [ransacLoop, candidateList]
  | succ k ih =>
    intro pos b
    rw [ransacLoop, candidateList]
    generalize sampleTriple pts.length rng pos fuel = o
    cases o with
    | none => simp
    | some s =>
      simp only [Option.bind_eq_bind, Option.some_bind]
      generalize atZ pts s.1 = o1
      cases o1 with
      | none => simp
      | some pt1 =>
        simp only [Option.bind_eq_bind, Option.some_bind]
        generalize atZ pts s.2.1 = o2
        cases o2 with
        | none => simp
        | some pt2 =>
          simp only [Option.bind_eq_bind, Option.some_bind]
          generalize atZ pts s.2.2.1 = o3
          cases o3 with
          | none => simp
          | some pt3 =>
            simp only [Option.bind_eq_bind, Option.some_bind]
            rw [ih]
            generalize candidateList eig pts threshold rng fuel k s.2.2.2 = o4
            cases o4 with
            | none => simp
            | some rest => simp [List.foldl_cons]

theorem candidateList_length
    (eig : Matrix (Fin 3) (Fin 3) ℚ → Matrix (Fin 3) (Fin 3) ℚ)
    (pts : List Point3f) (threshold : ℚ) (rng : ℕ → ℚ) (fuel : ℕ) :
    ∀ (k pos : ℕ) (L : List (ℕ × PlaneModel)) (posEnd : ℕ),
      candidateList eig pts threshold rng fuel k pos = some (L, posEnd) →
      L.length = k := by
  intro k
  induction k with
  | zero =>
    intro pos L posEnd h
    rw [candidateList] at h
    simp at h
    simp [h.1.symm]
  | succ k ih =>
    intro pos L posEnd h
    rw [candidateList] at h
    simp only [Option.bind_eq_bind, Option.bind_eq_some, Option.some.injEq] at h
    obtain ⟨s, hs, pt1, h1, pt2, h2, pt3, h3, rest, hr, hfin⟩ := h
    have hL : L = ((PlanePointRANSACDifferences pts
        (EstimatePlaneOptimal eig [pt1, pt2, pt3]) threshold).inliersNum,
        EstimatePlaneOptimal eig [pt1, pt2, pt3]) :: rest.1 :=
      (congrArg Prod.fst hfin).symm
    rw [hL, List.length_cons, ih s.2.2.2 rest.1 rest.2 (by rw [hr])]

theorem candidateList_scores
    (eig : Matrix (Fin 3) (Fin 3) ℚ → Matrix (Fin 3) (Fin 3) ℚ)
    (pts : List Point3f) (threshold : ℚ) (rng : ℕ → ℚ) (fuel : ℕ) :
    ∀ (k pos : ℕ) (L : List (ℕ × PlaneModel)) (posEnd : ℕ),
      candidateList eig pts threshold rng fuel k pos = some (L, posEnd) →
      ∀ c ∈ L, c.1 = (PlanePointRANSACDifferences pts c.2 threshold).inliersNum := by
  intro k
  induction k with
  | zero =>
    intro pos L posEnd h c hc
    rw [candidateList] at h
    simp only [Option.some.injEq, Prod.mk.injEq] at h
    rw [← h.1] at hc
    cases hc
  | succ k ih =>
    intro pos L posEnd h c hc
    rw [candidateList] at h
    simp only [Option.bind_eq_bind, Option.bind_eq_some, Option.some.injEq] at h
    obtain ⟨s, hs, pt1, h1, pt2, h2, pt3, h3, rest, hr, hfin⟩ := h
    have hL : L = ((PlanePointRANSACDifferences pts
        (EstimatePlaneOptimal eig [pt1, pt2, pt3]) threshold).inliersNum,
        EstimatePlaneOptimal eig [pt1, pt2, pt3]) :: rest.1 :=
      (congrArg Prod.fst hfin).symm
    rw [hL] at hc
    rcases List.mem_cons.mp hc with hc | hc
    · rw [hc]
    · exact ih s.2.2.2 rest.1 rest.2 (by rw [hr]) c hc

/-- Claim C4: each trial scores its candidate by the inlier count of the
full point cloud at the caller's threshold, and the incumbent best
candidate is replaced exactly on a strictly greater score: the loop's
final best score is the maximum candidate score, on ties the first-found
candidate wins (the retained plane is the first candidate attaining the
maximum), and when no candidate ever beats the initial score 0 the best
plane stays unset. -/
theorem trial_scoring
    (eig : Matrix (Fin 3) (Fin 3) ℚ → Matrix (Fin 3) (Fin 3) ℚ)
    (pts : List Point3f) (threshold : ℚ) (rng : ℕ → ℚ)
    (fuel k pos : ℕ) (L : List (ℕ × PlaneModel)) (posEnd : ℕ)
    (h : candidateList eig pts threshold rng fuel k pos = some (L, posEnd)) :
    ransacLoop eig pts threshold rng fuel k pos (0, none) =
        some (posEnd, List.foldl updBest (0, none) L) ∧
    (∀ c ∈ L, c.1 = (PlanePointRANSACDifferences pts c.2 threshold).inliersNum) ∧
    (List.foldl updBest (0, none) L).1 = maxScore L ∧
    (maxScore L = 0 → (List.foldl updBest (0, none) L).2 = none) ∧
    (0 < maxScore L → ∃ c, L.find? (fun d => d.1 == maxScore L) = some c ∧
        List.foldl updBest (0, none) L = (maxScore L, some c.2)) := by
  refine ⟨?_, candidateList_scores eig pts threshold rng fuel k pos L posEnd h,
    ?_, ?_, ?_⟩
  · rw [ransacLoop_eq_candidateList, h]
    rfl
  · rw [foldl_updBest_fst]
    omega
  · intro h0
    rw [foldl_updBest_of_le L (0, none) (by omega)]
  · intro h0
    exact foldl_updBest_of_lt L (0, none) h0

theorem zip_map_filterMap (pts : List Point3f) (f : Point3f → Bool) :
    ((pts.zip (pts.map f)).filterMap fun pb => if pb.2 then some pb.1 else none)
      = pts.filter f := by
  induction pts with
  | nil => rfl
  | cons a t ih =>
    cases hf : f a <;>
      simp [List.filterMap_cons, List.filter_cons, hf, ih]

/-- Claim C3: with at least 3 points, a positive threshold and a positive
iteration count, a run of the trial loop that completes (all trials
sample successfully and some trial records a best plane) consists of
exactly iterateNum trials, and the estimator then reclassifies the full
cloud against the best plane, collects the flagged inliers, and returns
the optimal fit of that inlier subset alone — never the minimal-sample
candidate itself. -/
theorem ransac_refit
    (eig : Matrix (Fin 3) (Fin 3) ℚ → Matrix (Fin 3) (Fin 3) ℚ)
    (pts : List Point3f) (threshold : ℚ) (iterateNum : ℤ) (rng : ℕ → ℚ)
    (fuel posEnd M : ℕ) (bp : PlaneModel)
    (h3 : 3 ≤ pts.length) (hth : 0 < threshold) (hk : 1 ≤ iterateNum)
    (hrun : ransacLoop eig pts threshold rng fuel iterateNum.toNat 0 (0, none) =
      some (posEnd, (M, some bp))) :
    (∃ L, candidateList eig pts threshold rng fuel iterateNum.toNat 0
        = some (L, posEnd) ∧
      L.length = iterateNum.toNat ∧
      List.foldl updBest (0, none) L = (M, some bp)) ∧
    EstimatePlaneRANSAC eig pts threshold iterateNum rng fuel =
      some (EstimatePlaneOptimal eig
        (pts.filter fun p => decide (planeDist bp p < threshold))) := by
  have heq := ransacLoop_eq_candidateList eig pts threshold rng fuel
    iterateNum.toNat 0 (0, none)
  rw [heq] at hrun
  cases hc : candidateList eig pts threshold rng fuel iterateNum.toNat 0 with
  | none => rw [hc] at hrun; simp at hrun
  | some r =>
    rw [hc] at hrun
    simp only [Option.map_some', Option.some.injEq] at hrun
    have hr2 : r.2 = posEnd := congrArg Prod.fst hrun
    have hr1 : List.foldl updBest (0, none) r.1 = (M, some bp) :=
      congrArg Prod.snd hrun
    constructor
    · refine ⟨r.1, ?_, ?_, hr1⟩
      · rw [← hr2]
      · exact candidateList_length eig pts threshold rng fuel
          iterateNum.toNat 0 r.1 r.2 (by rw [hc])
    · rw [EstimatePlaneRANSAC]
      have hloop : ransacLoop eig pts threshold rng fuel iterateNum.toNat 0 (0, none)
          = some (posEnd, (M, some bp)) := by
        rw [heq, hc]
        simp only [Option.map_some']
        exact congrArg some hrun
      rw [hloop]
      simp only [Option.bind_eq_bind, Option.some_bind]
      have hIsI : (PlanePointRANSACDifferences pts bp threshold).isInliers
          = pts.map fun p => decide (planeDist bp p < threshold) := rfl
      rw [hIsI, zip_map_filterMap]

theorem sampleTriple_rngTri : sampleTriple 3 rngTri 0 0 = some (0, 1, 2, 3) := by
  have e0 : drawIdx 3 (rngTri 0) = 0 := by norm_num [drawIdx, rngTri]
  have e1 : drawIdx 3 (rngTri 1) = 1 := by norm_num [drawIdx, rngTri]
  have e2 : drawIdx 3 (rngTri 2) = 2 := by norm_num [drawIdx, rngTri]
  simp [sampleTriple, resampleLoop, e0, e1, e2]

theorem estimateOptimal_ptsTri : EstimatePlaneOptimal eigId ptsTri = ⟨0, 0, 1, 0⟩ := by
  rw [EstimatePlaneOptimal, eigId_eq_one]
  norm_num [Matrix.one_apply, Fin.ext_iff, centroid, ptsTri]

theorem diffs_ptsTri :
    PlanePointRANSACDifferences ptsTri ⟨0, 0, 1, 0⟩ 1
      = ⟨3, [0, 0, 0], [true, true, true]⟩ := by
  norm_num [PlanePointRANSACDifferences, planeDist, ptsTri, List.countP_cons]

theorem candidateList_one_trial
    (eig : Matrix (Fin 3) (Fin 3) ℚ → Matrix (Fin 3) (Fin 3) ℚ)
    (pts : List Point3f) (threshold : ℚ) (rng : ℕ → ℚ) (fuel pos : ℕ)
    (i1 i2 i3 : ℤ) (posE : ℕ) (p1 p2 p3 : Point3f)
    (hs : sampleTriple pts.length rng pos fuel = some (i1, i2, i3, posE))
    (h1 : atZ pts i1 = some p1) (h2 : atZ pts i2 = some p2)
    (h3 : atZ pts i3 = some p3) :
    candidateList eig pts threshold rng fuel 1 pos =
      some ([((PlanePointRANSACDifferences pts
          (EstimatePlaneOptimal eig [p1, p2, p3]) threshold).inliersNum,
        EstimatePlaneOptimal eig [p1, p2, p3])], posE) := by
  rw [show (1 : ℕ) = 0 + 1 from rfl, candidateList, hs]
  simp only [Option.bind_eq_bind, Option.some_bind]
  rw [h1, h2, h3]
  simp only [Option.bind_eq_bind, Option.some_bind]
  rw [candidateList]
  rfl

theorem candidateList_rngTri :
    candidateList eigId ptsTri 1 rngTri 0 1 0 = some ([(3, ⟨0, 0, 1, 0⟩)], 3) := by
  have h0 : atZ ptsTri 0 = some ⟨0, 0, 0⟩ := by
    norm_num [atZ, ptsTri, Int.toNat_ofNat]
  have h1 : atZ ptsTri 1 = some ⟨1, 0, 0⟩ := by
    norm_num [atZ, ptsTri, Int.toNat_ofNat]
  have h2 : atZ ptsTri 2 = some ⟨0, 1, 0⟩ := by
    have ht : ((2 : ℤ)).toNat = 2 := rfl
    norm_num [atZ, ptsTri, ht]
  rw [candidateList_one_trial eigId ptsTri 1 rngTri 0 0 0 1 2 3
    ⟨0, 0, 0⟩ ⟨1, 0, 0⟩ ⟨0, 1, 0⟩
    (by rw [show ptsTri.length = 3 from rfl]; exact sampleTriple_rngTri) h0 h1 h2]
  rw [show ([⟨0, 0, 0⟩, ⟨1, 0, 0⟩, ⟨0, 1, 0⟩] : List Point3f) = ptsTri from rfl,
    estimateOptimal_ptsTri, diffs_ptsTri]

theorem ransacLoop_rngTri :
    ransacLoop eigId ptsTri 1 rngTri 0 1 0 (0, none)
      = some (3, (3, some ⟨0, 0, 1, 0⟩)) := by
  rw [ransacLoop_eq_candidateList, candidateList_rngTri]
  simp [updBest]

/-- Witness for the RANSAC refit claim: one trial on a triangle at z = 0
drawing the indices 0, 1, 2, whose candidate plane z = 0 scores 3. -/
theorem ransac_refit_witness :
    (3 ≤ ptsTri.length ∧ (0 : ℚ) < 1 ∧ (1 : ℤ) ≤ 1 ∧
      ransacLoop eigId ptsTri 1 rngTri 0 (Int.toNat 1) 0 (0, none)
        = some (3, (3, some ⟨0, 0, 1, 0⟩))) ∧
    ((∃ L, candidateList eigId ptsTri 1 rngTri 0 (Int.toNat 1) 0 = some (L, 3) ∧
      L.length = Int.toNat 1 ∧
      List.foldl updBest (0, none) L = (3, some ⟨0, 0, 1, 0⟩)) ∧
    EstimatePlaneRANSAC eigId ptsTri 1 1 rngTri 0 =
      some (EstimatePlaneOptimal eigId
        (ptsTri.filter fun p => decide (planeDist ⟨0, 0, 1, 0⟩ p < 1)))) :=
  ⟨⟨by norm_num [ptsTri], by norm_num, by norm_num, ransacLoop_rngTri⟩,
    ransac_refit eigId ptsTri 1 1 rngTri 0 3 3 ⟨0, 0, 1, 0⟩
      (by norm_num [ptsTri]) (by norm_num) (by norm_num) ransacLoop_rngTri⟩

/-- Witness for the trial scoring claim at the same concrete run. -/
theorem trial_scoring_witness :
    (candidateList eigId ptsTri 1 rngTri 0 1 0 = some ([(3, ⟨0, 0, 1, 0⟩)], 3)) ∧
    (ransacLoop eigId ptsTri 1 rngTri 0 1 0 (0, none) =
        some (3, List.foldl updBest (0, none) [(3, ⟨0, 0, 1, 0⟩)]) ∧
    (∀ c ∈ [((3 : ℕ), (⟨0, 0, 1, 0⟩ : PlaneModel))],
      c.1 = (PlanePointRANSACDifferences ptsTri c.2 1).inliersNum) ∧
    (List.foldl updBest (0, none) [((3 : ℕ), (⟨0, 0, 1, 0⟩ : PlaneModel))]).1
      = maxScore [(3, ⟨0, 0, 1, 0⟩)] ∧
    (maxScore [((3 : ℕ), (⟨0, 0, 1, 0⟩ : PlaneModel))] = 0 →
      (List.foldl updBest (0, none) [((3 : ℕ), (⟨0, 0, 1, 0⟩ : PlaneModel))]).2 = none) ∧
    (0 < maxScore [((3 : ℕ), (⟨0, 0, 1, 0⟩ : PlaneModel))] →
      ∃ c, List.find? (fun d => d.1 == maxScore [((3 : ℕ), (⟨0, 0, 1, 0⟩ : PlaneModel))])
          [((3 : ℕ), (⟨0, 0, 1, 0⟩ : PlaneModel))] = some c ∧
        List.foldl updBest (0, none) [((3 : ℕ), (⟨0, 0, 1, 0⟩ : PlaneModel))]
          = (maxScore [((3 : ℕ), (⟨0, 0, 1, 0⟩ : PlaneModel))], some c.2))) :=
  ⟨candidateList_rngTri,
    trial_scoring eigId ptsTri 1 rngTri 0 1 0 [(3, ⟨0, 0, 1, 0⟩)] 3 candidateList_rngTri⟩

theorem resampleLoop_none_of_collide (num : ℕ) (rng : ℕ → ℚ) (collide : ℤ → Bool)
    (hdraw : ∀ j, collide (drawIdx num (rng j)) = true) :
    ∀ (fuel : ℕ) (cur : ℤ) (pos : ℕ), collide cur = true →
      resampleLoop num rng collide fuel cur pos = none := by
  intro fuel
  induction fuel with
  | zero =>
    intro cur pos h
    rw [resampleLoop, if_pos h]
  | succ f ih =>
    intro cur pos h
    rw [resampleLoop, if_pos h]
    exact ih _ _ (hdraw pos)

theorem resampleLoop_some_not_collide (num : ℕ) (rng : ℕ → ℚ) (collide : ℤ → Bool) :
    ∀ (fuel : ℕ) (cur : ℤ) (pos : ℕ) (i : ℤ) (posE : ℕ),
      resampleLoop num rng collide fuel cur pos = some (i, posE) →
      collide i = false := by
  intro fuel
  induction fuel with
  | zero =>
    intro cur pos i posE h
    rw [resampleLoop] at h
    by_cases hc : collide cur = true
    · rw [if_pos hc] at h
      cases h
    · rw [if_neg hc] at h
      simp only [Option.some.injEq, Prod.mk.injEq] at h
      rw [Bool.not_eq_true] at hc
      rw [← h.1]
      exact hc
  | succ f ih =>
    intro cur pos i posE h
    rw [resampleLoop] at h
    by_cases hc : collide cur = true
    · rw [if_pos hc] at h
      exact ih _ _ _ _ h
    · rw [if_neg hc] at h
      simp only [Option.some.injEq, Prod.mk.injEq] at h
      rw [Bool.not_eq_true] at hc
      rw [← h.1]
      exact hc

theorem resampleLoop_some_pred (num : ℕ) (rng : ℕ → ℚ) (collide : ℤ → Bool)
    (P : ℤ → Prop) (hdraw : ∀ j, P (drawIdx num (rng j))) :
    ∀ (fuel : ℕ) (cur : ℤ) (pos : ℕ) (i : ℤ) (posE : ℕ), P cur →
      resampleLoop num rng collide fuel cur pos = some (i, posE) → P i := by
  intro fuel
  induction fuel with
  | zero =>
    intro cur pos i posE hP h
    rw [resampleLoop] at h
    by_cases hc : collide cur = true
    · rw [if_pos hc] at h
      cases h
    · rw [if_neg hc] at h
      simp only [Option.some.injEq, Prod.mk.injEq] at h
      rw [← h.1]
      exact hP
  | succ f ih =>
    intro cur pos i posE hP h
    rw [resampleLoop] at h
    by_cases hc : collide cur = true
    · rw [if_pos hc] at h
      exact ih _ _ _ _ (hdraw pos) h
    · rw [if_neg hc] at h
      simp only [Option.some.injEq, Prod.mk.injEq] at h
      rw [← h.1]
      exact hP

theorem drawIdx_range (num : ℕ) (r : ℚ) (h0 : 0 ≤ r) (h1 : r < 1) (hn : 1 ≤ num) :
    0 ≤ drawIdx num r ∧ drawIdx num r < num := by
  constructor
  · exact Int.floor_nonneg.mpr (mul_nonneg h0 (by positivity))
  · apply Int.floor_lt.mpr
    have hnum : (0 : ℚ) < num := by
      exact_mod_cast Nat.lt_of_lt_of_le Nat.zero_lt_one hn
    calc r * num < 1 * num := by exact mul_lt_mul_of_pos_right h1 hnum
    _ = num := one_mul _

theorem sampleTriple_none_small (num : ℕ) (hn : num = 1 ∨ num = 2)
    (rng : ℕ → ℚ) (hr : ∀ j, 0 ≤ rng j ∧ rng j < 1) :
    ∀ (pos fuel : ℕ), sampleTriple num rng pos fuel = none := by
  intro pos fuel
  have hnum1 : 1 ≤ num := by rcases hn with h | h <;> omega
  have hmem : ∀ j, 0 ≤ drawIdx num (rng j) ∧ drawIdx num (rng j) < num :=
    fun j => drawIdx_range num (rng j) (hr j).1 (hr j).2 hnum1
  rcases hn with h1 | h2
  · subst h1
    have hzero : ∀ j, drawIdx 1 (rng j) = 0 := by
      intro j
      have := hmem j
      omega
    simp only [sampleTriple]
    rw [resampleLoop_none_of_collide 1 rng _
      (fun j => by simp [hzero j, hzero pos]) fuel _ _
      (by simp [hzero (pos + 1), hzero pos])]
    rfl
  · subst h2
    have hmem2 : ∀ j, drawIdx 2 (rng j) = 0 ∨ drawIdx 2 (rng j) = 1 := by
      intro j
      have := hmem j
      omega
    simp only [sampleTriple]
    generalize hL2 : resampleLoop 2 rng (fun i => i == drawIdx 2 (rng pos)) fuel
      (drawIdx 2 (rng (pos + 1))) (pos + 3) = o2
    cases o2 with
    | none => rfl
    | some r2 =>
      have hne : (r2.1 == drawIdx 2 (rng pos)) = false :=
        resampleLoop_some_not_collide 2 rng (fun i => i == drawIdx 2 (rng pos))
          fuel (drawIdx 2 (rng (pos + 1))) (pos + 3) r2.1 r2.2 hL2
      have hr2mem : r2.1 = 0 ∨ r2.1 = 1 :=
        resampleLoop_some_pred 2 rng (fun i => i == drawIdx 2 (rng pos))
          (fun i => i = 0 ∨ i = 1) hmem2 fuel (drawIdx 2 (rng (pos + 1)))
          (pos + 3) r2.1 r2.2 (hmem2 (pos + 1)) hL2
      have hcol : ∀ i : ℤ, i = 0 ∨ i = 1 →
          ((i == drawIdx 2 (rng pos)) || (i == r2.1)) = true := by
        intro i hi
        have hx := hmem2 pos
        have hne2 : r2.1 ≠ drawIdx 2 (rng pos) := by
          intro hcontra
          rw [hcontra] at hne
          simp at hne
        simp only [Bool.or_eq_true, beq_iff_eq]
        rcases hi with hi | hi <;> rcases hx with hx | hx <;>
          rcases hr2mem with hr | hr <;> omega
      simp only [Option.bind_eq_bind, Option.some_bind]
      rw [resampleLoop_none_of_collide 2 rng _
        (fun j => hcol _ (hmem2 j)) fuel _ _ (hcol _ (hmem2 (pos + 2)))]
      rfl

theorem estimatePlaneRANSAC_none_of_sample_none
    (eig : Matrix (Fin 3) (Fin 3) ℚ → Matrix (Fin 3) (Fin 3) ℚ)
    (pts : List Point3f) (threshold : ℚ) (iterateNum : ℤ) (rng : ℕ → ℚ)
    (fuel : ℕ) (hk : 1 ≤ iterateNum)
    (hnone : ∀ pos, sampleTriple pts.length rng pos fuel = none) :
    EstimatePlaneRANSAC eig pts threshold iterateNum rng fuel = none := by
  obtain ⟨m, hm⟩ : ∃ m, iterateNum.toNat = m + 1 := ⟨iterateNum.toNat - 1, by omega⟩
  have hloop : ransacLoop eig pts threshold rng fuel (m + 1) 0 (0, none) = none := by
    rw [ransacLoop, hnone 0]
    rfl
  rw [EstimatePlaneRANSAC, hm, hloop]
  rfl

/-- Claim C10: on a cloud of 1 or 2 points, for any random stream whose
ratios lie in [0, 1) — so every drawn index is in [0, n) — the
distinct-index resampling can never produce three distinct indices: the
sampling returns none for every fuel bound, which is the fuel model of a
while-loop that never terminates, and with a positive iteration count the
whole estimator likewise never returns (rather than reporting an
InsufficientPoints error). -/
theorem ransac_diverges_small_cloud
    (eig : Matrix (Fin 3) (Fin 3) ℚ → Matrix (Fin 3) (Fin 3) ℚ)
    (pts : List Point3f) (threshold : ℚ) (iterateNum : ℤ) (rng : ℕ → ℚ)
    (hn : pts.length = 1 ∨ pts.length = 2)
    (hr : ∀ j, 0 ≤ rng j ∧ rng j < 1)
    (hk : 1 ≤ iterateNum) :
    (∀ (pos fuel : ℕ), sampleTriple pts.length rng pos fuel = none) ∧
    (∀ fuel : ℕ, EstimatePlaneRANSAC eig pts threshold iterateNum rng fuel = none) :=
  ⟨fun pos fuel => sampleTriple_none_small pts.length hn rng hr pos fuel,
   fun fuel => estimatePlaneRANSAC_none_of_sample_none eig pts threshold iterateNum
     rng fuel hk fun pos => sampleTriple_none_small pts.length hn rng hr pos fuel⟩

/-- Witness for the divergence claim: a single point, the all-zero stream. -/
theorem ransac_diverges_small_cloud_witness :
    ((ptsOne.length = 1 ∨ ptsOne.length = 2) ∧
      (∀ j : ℕ, 0 ≤ (fun _ : ℕ => (0 : ℚ)) j ∧ (fun _ : ℕ => (0 : ℚ)) j < 1) ∧
      (1 : ℤ) ≤ 1) ∧
    ((∀ (pos fuel : ℕ), sampleTriple ptsOne.length (fun _ => 0) pos fuel = none) ∧
     (∀ fuel : ℕ, EstimatePlaneRANSAC eigId ptsOne 1 1 (fun _ => 0) fuel = none)) :=
  ⟨⟨Or.inl rfl, fun _ => ⟨le_refl 0, by norm_num⟩, by norm_num⟩,
    ransac_diverges_small_cloud eigId ptsOne 1 1 (fun _ => 0) (Or.inl rfl)
      (fun _ => ⟨le_refl 0, by norm_num⟩) (by norm_num)⟩

theorem scatter_ptsTwo :
    scatter ptsTwo = Matrix.of ![![2, 0, 0], ![0, 0, 0], ![0, 0, 0]] := by
  ext i j
  fin_cases i <;> fin_cases j <;>
    norm_num [scatter, centroid, ptsTwo, vec3]

theorem eigenSpec_ptsTwo :
    EigenSpec (scatter ptsTwo) (eigId (scatter ptsTwo)) ![2, 0, 0] := by
  refine ⟨?_, ?_, ?_, ?_⟩
  · rw [eigId_eq_one, Matrix.transpose_one, one_mul]
  · intro i
    rw [scatter_ptsTwo, eigId_eq_one]
    funext j
    fin_cases i <;> fin_cases j <;>
      norm_num [Matrix.mulVec, Matrix.dotProduct, Fin.sum_univ_three,
        Matrix.one_apply, Fin.ext_iff]
  · norm_num
  · norm_num

/-- Claim C5 is violated by the code (code_bug): on the 2-point cloud
ptsTwo no InsufficientPoints error exists anywhere.  EstimatePlaneOptimal
silently returns the plane z = 0 (under a legitimate eigensolver output
for the degenerate scatter matrix), and EstimatePlaneRANSAC, instead of
failing fast with no trials, enters the first trial and never returns:
its index2 resampling loop cannot terminate on a stream that keeps
drawing the ratio 1/2. -/
theorem insufficient_points_unchecked :
    EigenSpec (scatter ptsTwo) (eigId (scatter ptsTwo)) ![2, 0, 0] ∧
    EstimatePlaneOptimal eigId ptsTwo = ⟨0, 0, 1, 0⟩ ∧
    ∀ fuel : ℕ, EstimatePlaneRANSAC eigId ptsTwo 1 5 rngHalf fuel = none := by
  refine ⟨eigenSpec_ptsTwo, ?_, ?_⟩
  · rw [EstimatePlaneOptimal, eigId_eq_one]
    norm_num [Matrix.one_apply, Fin.ext_iff, centroid, ptsTwo]
  · intro fuel
    apply estimatePlaneRANSAC_none_of_sample_none eigId ptsTwo 1 5 rngHalf fuel
      (by norm_num)
    intro pos
    exact sampleTriple_none_small ptsTwo.length (Or.inr rfl) rngHalf
      (fun _ => by norm_num [rngHalf]) pos fuel

/-- Claim C6 is violated by the code (code_bug): a zero threshold is not
rejected — the classifier returns the all-outlier classification — and a
zero iteration count is not rejected either: the estimator runs no trial
and then reads the uninitialized bestPlane array (modelled as none),
returning garbage rather than an InvalidParameter error. -/
theorem invalid_parameter_unchecked :
    PlanePointRANSACDifferences ptsTri ⟨0, 0, 1, 5⟩ 0
      = ⟨0, [5, 5, 5], [false, false, false]⟩ ∧
    EstimatePlaneRANSAC eigId ptsTri 1 0 rngTri 5 = none := by
  constructor
  · norm_num [PlanePointRANSACDifferences, planeDist, ptsTri, List.countP_cons]
  · rw [EstimatePlaneRANSAC, show (0 : ℤ).toNat = 0 from rfl, ransacLoop]
    rfl

/-- Claim C7 is violated by the code (code_bug): rand() can return
RAND_MAX, making the ratio exactly 1 and the sampled index equal to num.
On the 3-point cloud with such a first draw the trial samples the triple
(3, 0, 1): the indices are pairwise distinct, but index1 = 3 is outside
[0, 3), and pts.at(index1) aborts the trial (std::out_of_range, modelled
by atZ = none), so the minimal-sample accesses are not always in bounds. -/
theorem sampling_out_of_range :
    sampleTriple ptsTri.length rngCrash 0 0 = some (3, 0, 1, 3) ∧
    ¬ ((3 : ℤ) < (ptsTri.length : ℤ)) ∧
    atZ ptsTri 3 = none ∧
    ∀ best : ℕ × Option PlaneModel,
      ransacLoop eigId ptsTri 1 rngCrash 0 1 0 best = none := by
  have hlen : ptsTri.length = 3 := rfl
  have e0 : drawIdx 3 (rngCrash 0) = 3 := by norm_num [drawIdx, rngCrash]
  have e1 : drawIdx 3 (rngCrash 1) = 0 := by norm_num [drawIdx, rngCrash]
  have e2 : drawIdx 3 (rngCrash 2) = 1 := by norm_num [drawIdx, rngCrash]
  have hsamp : sampleTriple ptsTri.length rngCrash 0 0 = some (3, 0, 1, 3) := by
    rw [hlen]
    simp [sampleTriple, resampleLoop, e0, e1, e2]
  have hat : atZ ptsTri 3 = none := by
    have ht : ((3 : ℤ)).toNat = 3 := rfl
    norm_num [atZ, ptsTri, ht]
  refine ⟨hsamp, by rw [hlen]; norm_num, hat, ?_⟩
  intro best
  rw [show (1 : ℕ) = 0 + 1 from rfl, ransacLoop, hsamp]
  simp only [Option.bind_eq_bind, Option.some_bind]
  rw [hat]
  rfl

/-- Claim C8 is violated by the code (code_bug): the randomness is the
process-global rand() stream, not a caller-supplied generator.  With the
global stream modelled explicitly, a first call with k = 1 consumes the
draws at positions 0..2; a second, identical call then starts at
position 3 and samples a different index triple, so two calls with
identical arguments do not draw the same triples. -/
theorem global_rand_state_not_reproducible :
    sampleTriple 3 rngGlobal 0 0 = some (0, 1, 2, 3) ∧
    sampleTriple 3 rngGlobal 3 0 = some (2, 1, 0, 6) ∧
    sampleTriple 3 rngGlobal 0 0 ≠ sampleTriple 3 rngGlobal 3 0 := by
  have hA : sampleTriple 3 rngGlobal 0 0 = some (0, 1, 2, 3) := by
    have e0 : drawIdx 3 (rngGlobal 0) = 0 := by norm_num [drawIdx, rngGlobal]
    have e1 : drawIdx 3 (rngGlobal 1) = 1 := by norm_num [drawIdx, rngGlobal]
    have e2 : drawIdx 3 (rngGlobal 2) = 2 := by norm_num [drawIdx, rngGlobal]
    simp [sampleTriple, resampleLoop, e0, e1, e2]
  have hB : sampleTriple 3 rngGlobal 3 0 = some (2, 1, 0, 6) := by
    have e3 : drawIdx 3 (rngGlobal 3) = 2 := by norm_num [drawIdx, rngGlobal]
    have e4 : drawIdx 3 (rngGlobal 4) = 1 := by norm_num [drawIdx, rngGlobal]
    have e5 : drawIdx 3 (rngGlobal 5) = 0 := by norm_num [drawIdx, rngGlobal]
    simp [sampleTriple, resampleLoop, e3, e4, e5]
  refine ⟨hA, hB, ?_⟩
  rw [hA, hB]
  simp
